import Mathlib

/-!
Verification of the poster-generation pipeline in `src/main.py`.

The development shallowly embeds the pieces of the program that the
specification talks about:

* a JSON value model (`Json`) standing for the values produced by Python's
  `json.loads` (numbers are modelled as integers; the program never relies
  on fractional numeric values),
* Python-dict operations (`get?`, `insertKey`) with CPython semantics
  (first-occurrence position, replacement keeps position, append when new),
* the response-parsing and normalization portion of `generate_text`
  (src/main.py lines 196-254): strip, fenced-code-block extraction,
  balanced-brace scanning, JSON parsing and field normalization,
* the prompt builder (`build_style_block` and the f-string of
  `generate_text`, lines 79-175),
* the color helpers `color_from_name` and `theme_colors` (lines 45-72),
* the photo data-URL construction (lines 479-480) together with a base64
  encoder/decoder pair used to state that the payload is the base64
  encoding of exactly the uploaded bytes.
-/

namespace PosterGen

/-- JSON values as returned by Python's `json.loads`.  Objects are
association lists in insertion order (CPython dict order); `json.loads`
never produces duplicate keys (later duplicates overwrite in place), which
the parser below reproduces via `insertKey`.  Numbers are modelled as
integers: the program's normalization logic only ever distinguishes
numbers by truthiness (zero / non-zero), so fractional values are out of
scope of this embedding. -/
inductive Json where
  | null : Json
  | bool : Bool → Json
  | num : Int → Json
  | str : String → Json
  | arr : List Json → Json
  | obj : List (String × Json) → Json

/-- First-occurrence lookup in a Python dict: `d[k]` / `d.get(k)`. -/
def get? : List (String × Json) → String → Option Json
  | [], _ => none
  | (k, v) :: t, key => if k = key then some v else get? t key

/-- Python dict assignment `d[k] = v`: replace the value at the first
occurrence of `k` keeping its position, else append. -/
def insertKey : List (String × Json) → String → Json → List (String × Json)
  | [], key, v => [(key, v)]
  | (k, w) :: t, key, v =>
      if k = key then (key, v) :: t else (k, w) :: insertKey t key v

/-- Python truthiness of a `json.loads` value (`bool(x)`). -/
def pyTruthy : Json → Bool
  | Json.null => false
  | Json.bool b => b
  | Json.num n => n ≠ 0
  | Json.str s => s ≠ ""
  | Json.arr xs => !xs.isEmpty
  | Json.obj kvs => !kvs.isEmpty

/-- Python `repr` of a string: quote selection (single quotes unless the
string contains a single quote and no double quote) and escaping of the
backslash, the chosen quote, and the common control characters.  `\\x`
escapes for other non-printable characters are not modelled; the program
only ever applies this to values that came out of `json.loads`. -/
def pyReprStr (s : String) : String :=
  let q : Char :=
    if s.contains '\x27' && !(s.contains '\x22') then '\x22' else '\x27'
  let esc : Char → String := fun c =>
    if c = '\\' then "\\\\"
    else if c = q then "\\" ++ String.mk [q]
    else if c = '\n' then "\\n"
    else if c = '\r' then "\\r"
    else if c = '\t' then "\\t"
    else String.mk [c]
  String.mk [q] ++ String.join (s.data.map esc) ++ String.mk [q]

mutual

/-- Python `repr` of a `json.loads` value. -/
def pyRepr : Json → String
  | Json.null => "None"
  | Json.bool true => "True"
  | Json.bool false => "False"
  | Json.num n => toString n
  | Json.str s => pyReprStr s
  | Json.arr xs => "[" ++ pyReprList xs ++ "]"
  | Json.obj kvs => "\x7b" ++ pyReprObj kvs ++ "\x7d"

/-- Comma-separated reprs of list elements. -/
def pyReprList : List Json → String
  | [] => ""
  | [x] => pyRepr x
  | x :: y :: t => pyRepr x ++ ", " ++ pyReprList (y :: t)

/-- Comma-separated `key: value` reprs of dict entries. -/
def pyReprObj : List (String × Json) → String
  | [] => ""
  | [(k, v)] => pyReprStr k ++ ": " ++ pyRepr v
  | (k, v) :: e :: t => pyReprStr k ++ ": " ++ pyRepr v ++ ", " ++ pyReprObj (e :: t)

end

/-- Python `str` of a `json.loads` value (`str(x)`): identity on strings,
`repr` otherwise. -/
def pyStr : Json → String
  | Json.str s => s
  | v => pyRepr v

/-- The four theme names accepted by the normalization step
(src/main.py line 238). -/
def KNOWN_THEMES : List String :=
  ["blue_orange", "green_gold", "red_yellow", "yellow_blue"]

/-- The theme value assigned by lines 237-240: the parsed value if it is
one of the four known theme strings, else the default `"blue_orange"`
(also when the parsed value is not a string at all, since Python's
`theme not in [...]` is then true). -/
def themeOf (v : Json) : String :=
  match v with
  | Json.str s => if s ∈ KNOWN_THEMES then s else "blue_orange"
  | _ => "blue_orange"

/-- Lines 237-240: `parsed["color_theme"] = theme`. -/
def normalize_theme (kvs : List (String × Json)) : List (String × Json) :=
  insertKey kvs "color_theme"
    (Json.str (themeOf ((get? kvs "color_theme").getD (Json.str "blue_orange"))))

/-- Lines 242-244: `bullets = parsed.get("bullet_points_ta") or []`,
wrapped as `[str(bullets)]` when not a list. -/
def bulletsOf (v : Json) : List Json :=
  match (if pyTruthy v then v else Json.arr []) with
  | Json.arr xs => xs
  | w => [Json.str (pyStr w)]

/-- Lines 242-245: `parsed["bullet_points_ta"] = bullets[:3]`. -/
def normalize_bullets (kvs : List (String × Json)) : List (String × Json) :=
  insertKey kvs "bullet_points_ta"
    (Json.arr ((bulletsOf ((get? kvs "bullet_points_ta").getD Json.null)).take 3))

/-- Lines 247-252: the rebuilt `text_colors` dict.  `none` models the
`AttributeError` Python raises when `text_colors` is a truthy non-dict
(such a value has no `.get` method); that exception propagates out of
`generate_text` uncaught. -/
def textColorsOf (v : Json) : Option (List (String × Json)) :=
  match (if pyTruthy v then v else Json.obj []) with
  | Json.obj tkvs =>
      some [("headline", (get? tkvs "headline").getD (Json.str "dark_blue")),
            ("body", (get? tkvs "body").getD (Json.str "black")),
            ("cta", (get? tkvs "cta").getD (Json.str "red"))]
  | _ => none

/-- Lines 247-252: `parsed["text_colors"] = {...}`. -/
def normalize_text_colors (kvs : List (String × Json)) :
    Option (List (String × Json)) :=
  (textColorsOf ((get? kvs "text_colors").getD Json.null)).map
    (fun tc => insertKey kvs "text_colors" (Json.obj tc))

/-- The whole normalization block of `generate_text`
(src/main.py lines 236-254), in source order: theme, bullets, text colors. -/
def normalizeParsed (kvs : List (String × Json)) :
    Option (List (String × Json)) :=
  normalize_text_colors (normalize_bullets (normalize_theme kvs))

/-- Whitespace stripped by Python's `str.strip()` and matched by the
regex class `\s` (the ASCII cases; the inputs this program strips are
model responses, for which the exotic Unicode space characters do not
occur and are not modelled). -/
def isPyWs (c : Char) : Bool :=
  c = ' ' || c = '\t' || c = '\n' || c = '\r' || c = '\x0b' || c = '\x0c'

/-- `str.strip()` (src/main.py line 200). -/
def py_strip (cs : List Char) : List Char :=
  ((cs.dropWhile isPyWs).reverse.dropWhile isPyWs).reverse

/-- Greedy `\s*`. -/
def skipWs (cs : List Char) : List Char := cs.dropWhile isPyWs

/-- The literal ` ``` ` fence. -/
def fenceTicks : List Char := ['\x60', '\x60', '\x60']

/-- Consume `json` case-insensitively (the regex is compiled with
`re.I`). -/
def matchCIjson : List Char → Option (List Char)
  | a :: b :: c :: d :: t =>
      if a.toLower = 'j' && b.toLower = 's' && c.toLower = 'o' && d.toLower = 'n'
      then some t else none
  | _ => none

/-- Does `\s*` followed by the closing fence match here? -/
def fenceTailOk (cs : List Char) : Bool :=
  fenceTicks.isPrefixOf (skipWs cs)

/-- The non-greedy `.*?\}` of the fenced pattern (with `re.S`, so `.`
matches newlines): take the shortest extension that ends at a `\x7d`
after which `\s*`+fence matches.  Returns the consumed characters
(ending with that `\x7d`). -/
def fenceClose : List Char → Option (List Char)
  | [] => none
  | c :: t =>
      if c = '\x7d' && fenceTailOk t then some [c]
      else (fenceClose t).map (fun r => c :: r)

/-- `\s*\{.*?\}...`: skip whitespace, require an opening brace, and run
the non-greedy capture; returns the capture group (brace to brace). -/
def fencedTryOpen (cs2 : List Char) : Option (List Char) :=
  match skipWs cs2 with
  | c :: t => if c = '\x7b' then (fenceClose t).map (fun r => '\x7b' :: r) else none
  | [] => none

/-- Match the body of the fenced pattern right after an opening fence:
`(?:json)?\s*(\{.*?\})\s*`+fence, returning the capture group.  When
`json` is consumed but the remainder fails, the regex engine backtracks
to the empty alternative of `(?:json)?`. -/
def fencedAfterTicks (cs : List Char) : Option (List Char) :=
  match matchCIjson cs with
  | some t =>
      match fencedTryOpen t with
      | some r => some r
      | none => fencedTryOpen cs
  | none => fencedTryOpen cs

/-- `re.search(r"```(?:json)?\s*(\{.*?\})\s*```", raw, re.S | re.I)`
(src/main.py line 209): try each start position left to right and return
the capture group of the first full match. -/
def fencedSearch : List Char → Option (List Char)
  | [] => none
  | c :: t =>
      match (if fenceTicks.isPrefixOf (c :: t)
             then fencedAfterTicks ((c :: t).drop 3) else none) with
      | some r => some r
      | none => fencedSearch t

/-- `raw.find("{")` (line 214): the suffix starting at the first `\x7b`. -/
def findOpen : List Char → Option (List Char)
  | [] => none
  | c :: t => if c = '\x7b' then some (c :: t) else findOpen t

/-- The depth-counting loop of lines 216-224, started at the first
`\x7b`: count `\x7b` up and `\x7d` down and stop at the `\x7d` that
brings the depth to zero, returning the consumed characters.  The count
is oblivious to string literals, exactly as in the source. -/
def scanClose : Int → List Char → Option (List Char)
  | _, [] => none
  | d, c :: t =>
      if c = '\x7b' then (scanClose (d + 1) t).map (fun r => c :: r)
      else if c = '\x7d' then
        if d - 1 = 0 then some [c] else (scanClose (d - 1) t).map (fun r => c :: r)
      else (scanClose d t).map (fun r => c :: r)

/-- Lines 213-224: balanced-brace extraction of the JSON candidate. -/
def brace_scan (cs : List Char) : Option (List Char) :=
  (findOpen cs).bind (fun suf => scanClose 0 suf)

/-- JSON whitespace accepted by `json.loads`. -/
def isJsonWs (c : Char) : Bool :=
  c = ' ' || c = '\t' || c = '\n' || c = '\r'

/-- Skip JSON whitespace. -/
def skipJsonWs (cs : List Char) : List Char := cs.dropWhile isJsonWs

/-- Hexadecimal digit value, by code point: digits (48-57), lowercase
a-f (97-102), uppercase A-F (65-70). -/
def hexVal (c : Char) : Option Nat :=
  let n := c.toNat
  if 48 ≤ n ∧ n ≤ 57 then some (n - 48)
  else if 97 ≤ n ∧ n ≤ 102 then some (n - 87)
  else if 65 ≤ n ∧ n ≤ 70 then some (n - 55)
  else none

/-- Decode the four hex digits of a `\uXXXX` escape.  Surrogate code
units are rejected by this model (CPython pairs or passes them through;
no input relevant to the claims contains them). -/
def uEscape (a b c d : Char) : Option Char :=
  match hexVal a, hexVal b, hexVal c, hexVal d with
  | some x, some y, some z, some w =>
      let n := ((x * 16 + y) * 16 + z) * 16 + w
      if h : n < 0xd800 then some (Char.ofNatAux n (by omega)) else none
  | _, _, _, _ => none

/-- Parse the remainder of a JSON string literal (after the opening
quote), strict mode: unescaped control characters are rejected, the
escapes are the eight JSON ones plus `\uXXXX`. -/
def parseStr : Nat → List Char → Option (String × List Char)
  | 0, _ => none
  | _ + 1, [] => none
  | fuel + 1, c :: t =>
      if c = '\x22' then some ("", t)
      else if c = '\\' then
        match t with
        | [] => none
        | e :: t2 =>
            let cont : Char → Option (String × List Char) := fun ch =>
              (parseStr fuel t2).map (fun p => (String.mk [ch] ++ p.1, p.2))
            if e = '\x22' then cont '\x22'
            else if e = '\\' then cont '\\'
            else if e = '/' then cont '/'
            else if e = 'b' then cont '\x08'
            else if e = 'f' then cont '\x0c'
            else if e = 'n' then cont '\n'
            else if e = 'r' then cont '\r'
            else if e = 't' then cont '\t'
            else if e = 'u' then
              match t2 with
              | h1 :: h2 :: h3 :: h4 :: t3 =>
                  match uEscape h1 h2 h3 h4 with
                  | some ch => (parseStr fuel t3).map (fun p => (String.mk [ch] ++ p.1, p.2))
                  | none => none
              | _ => none
            else none
      else if c.toNat < 0x20 then none
      else (parseStr fuel t).map (fun p => (String.mk [c] ++ p.1, p.2))

/-- Parse a JSON integer (optional minus, no leading zeros).  A trailing
`.`, `e` or `E` would start a fractional/exponent part, which this
embedding does not model and rejects. -/
def parseNum (cs : List Char) : Option (Int × List Char) :=
  let digitsOf : List Char → Option (Nat × List Char) := fun ds =>
    match ds with
    | [] => none
    | c :: t =>
        if c = '0' then some (0, t)
        else if c.isDigit then
          let rec go : Nat → List Char → Nat × List Char
            | acc, [] => (acc, [])
            | acc, c2 :: t2 =>
                if c2.isDigit then go (acc * 10 + (c2.toNat - '0'.toNat)) t2
                else (acc, c2 :: t2)
          some (go (c.toNat - '0'.toNat) t)
    else none
  let finish : Int → List Char → Option (Int × List Char) := fun n rest =>
    match rest with
    | c :: _ => if c = '.' || c = 'e' || c = 'E' then none else some (n, rest)
    | [] => some (n, [])
  match cs with
  | '-' :: t =>
      match digitsOf t with
      | some (n, rest) => finish (-(n : Int)) rest
      | none => none
  | _ =>
      match digitsOf cs with
      | some (n, rest) => finish (n : Int) rest
      | none => none

mutual

/-- Parse one JSON value (fuel-indexed; the fuel only bounds recursion
depth and is chosen large enough at the call site). -/
def parseVal : Nat → List Char → Option (Json × List Char)
  | 0, _ => none
  | fuel + 1, cs =>
      match skipJsonWs cs with
      | [] => none
      | c :: t =>
          if c = '\x7b' then
            match skipJsonWs t with
            | '\x7d' :: t2 => some (Json.obj [], t2)
            | t2 => (parseMembers fuel t2 []).map (fun p => (Json.obj p.1, p.2))
          else if c = '[' then
            match skipJsonWs t with
            | ']' :: t2 => some (Json.arr [], t2)
            | t2 => (parseItems fuel t2 []).map (fun p => (Json.arr p.1, p.2))
          else if c = '\x22' then
            (parseStr (t.length + 1) t).map (fun p => (Json.str p.1, p.2))
          else match c :: t with
            | 't' :: 'r' :: 'u' :: 'e' :: t2 => some (Json.bool true, t2)
            | 'f' :: 'a' :: 'l' :: 's' :: 'e' :: t2 => some (Json.bool false, t2)
            | 'n' :: 'u' :: 'l' :: 'l' :: t2 => some (Json.null, t2)
            | cs2 => (parseNum cs2).map (fun p => (Json.num p.1, p.2))

/-- Parse the members of a JSON object after its opening brace (at least
one member), accumulating with Python-dict insertion. -/
def parseMembers : Nat → List Char → List (String × Json) →
    Option (List (String × Json) × List Char)
  | 0, _, _ => none
  | fuel + 1, cs, acc =>
      match skipJsonWs cs with
      | '\x22' :: t =>
          match parseStr (t.length + 1) t with
          | some (key, t2) =>
              match skipJsonWs t2 with
              | ':' :: t3 =>
                  match parseVal fuel t3 with
                  | some (v, t4) =>
                      let acc2 := insertKey acc key v
                      match skipJsonWs t4 with
                      | ',' :: t5 => parseMembers fuel t5 acc2
                      | '\x7d' :: t5 => some (acc2, t5)
                      | _ => none
                  | none => none
              | _ => none
          | none => none
      | _ => none

/-- Parse the items of a JSON array after its opening bracket (at least
one item). -/
def parseItems : Nat → List Char → List Json → Option (List Json × List Char)
  | 0, _, _ => none
  | fuel + 1, cs, acc =>
      match parseVal fuel cs with
      | some (v, t) =>
          match skipJsonWs t with
          | ',' :: t2 => parseItems fuel t2 (acc ++ [v])
          | ']' :: t2 => some (acc ++ [v], t2)
          | _ => none
      | none => none

end

/-- `json.loads` (src/main.py line 230) on the character list of the
candidate text: one JSON value, surrounded by nothing but whitespace. -/
def jsonLoads (cs : List Char) : Option Json :=
  match parseVal (cs.length + 4) cs with
  | some (v, rest) => if (skipJsonWs rest).isEmpty then some v else none
  | none => none

/-- The failure modes of the parsing portion of `generate_text`
(§7 of the spec): the three `ValueError`s of lines 202-234, plus the
`AttributeError` that escapes line 249 when `text_colors` is a truthy
non-dict. -/
inductive GenError where
  | emptyResponse : GenError
  | noJsonFound : String → GenError
  | invalidJson : String → GenError
  | attributeError : GenError
deriving DecidableEq

/-- Lines 229-254 applied to an extracted candidate: `json.loads`, then
normalization.  A successful `json.loads` of a candidate that starts
with `\x7b` always yields an object; the non-object case is kept for
totality and maps to the `AttributeError` that `parsed.get` would raise. -/
def handleCandidate (cap : List Char) : Except GenError (List (String × Json)) :=
  match jsonLoads cap with
  | none => Except.error (GenError.invalidJson (String.mk cap))
  | some (Json.obj kvs) =>
      match normalizeParsed kvs with
      | some p => Except.ok p
      | none => Except.error GenError.attributeError
  | some _ => Except.error GenError.attributeError

/-- Lines 202-254 on the already-stripped raw text: fail on empty,
extract a JSON candidate by fenced-block search and otherwise by
balanced-brace scanning, fail when none is found, then parse and
normalize. -/
def parse_stripped (raw : List Char) : Except GenError (List (String × Json)) :=
  if raw.isEmpty then Except.error GenError.emptyResponse
  else
    match fencedSearch raw with
    | some cap => handleCandidate cap
    | none =>
        match brace_scan raw with
        | some cap => handleCandidate cap
        | none => Except.error (GenError.noJsonFound (String.mk raw))

/-- The response-parsing and normalization portion of `generate_text`
(src/main.py lines 200-254), from the joined response text onward. -/
def parse_response (rawText : String) : Except GenError (List (String × Json)) :=
  parse_stripped (py_strip rawText.data)

/-- The style block returned for mode `"Conversation"` (src/main.py lines 82-90). -/
def styleConversation : String :=
  "\nSTYLE:\n- body_paragraph_ta should look like a SHORT conversation between\n  \"ро╡ро╛роЯро┐роХрпНроХрпИропро╛ро│ро░рпН\" рооро▒рпНро▒рпБроорпН \"роЖро▓рпЛроЪроХро░рпН\".\n- Use speaker labels like:\n  \"ро╡ро╛роЯро┐роХрпНроХрпИропро╛ро│ро░рпН:\" and \"роЖро▓рпЛроЪроХро░рпН:\".\n- 5тАУ7 lines max, casual spoken Tamil, but still neat.\n- bullet_points_ta should then summarize 3 key benefits in simple one-liners.\n"

/-- The style block returned for mode `"Fact-based awareness"` (lines 92-98). -/
def styleFact : String :=
  "\nSTYLE:\n- body_paragraph_ta should highlight 2тАУ3 simple facts or scenarios\n  (роЙродро╛ро░рогроорпН: hospital bills, роОродро┐ро░рпНрокро╛ро░ро╛род ро╡ро┐рокродрпНродрпБ, children\x27s future).\n- Use a slightly serious, informative tone.\n- bullet_points_ta should look like 3 crisp benefits/facts.\n"

/-- The default style block (standard marketing, lines 100-105). -/
def styleStandard : String :=
  "\nSTYLE:\n- Simple marketing style, friendly and emotional.\n- body_paragraph_ta: directly talk to the reader (\"роирпАроЩрпНроХро│рпН\").\n- bullet_points_ta: 3 small benefit lines (safety, medical expenses, tax, etc.).\n"

/-- `build_style_block` (src/main.py lines 79-105): extra instructions
depending on style mode, chosen by exact match with the standard
marketing block as the default. -/
def build_style_block (style_mode : String) : String :=
  if style_mode = "Conversation" then styleConversation
  else if style_mode = "Fact-based awareness" then styleFact
  else styleStandard

/-- Poster layout constants (src/main.py lines 36-38). -/
def POSTER_WIDTH : Nat := 1080

/-- Poster height (line 37). -/
def POSTER_HEIGHT : Nat := 1080

/-- Footer strip height (line 38). -/
def FOOTER_HEIGHT : Nat := 210

/-- The prompt f-string of `generate_text` (src/main.py lines 119-175),
with the interpolations of the layout constants and of the selected
style block. -/
def build_prompt (style_mode : String) : String :=
  "\nроирпА роТро░рпБ роЕройрпБрокро╡роорпН ро╡ро╛ропрпНроирпНрод родрооро┐ро┤рпН роЗройрпНро╖рпВро░ройрпНро╕рпН рооро╛ро░рпНроХрпНроХрпЖроЯрпНроЯро┐роЩрпН роХро╛рокро┐ ро░рпИроЯрпНроЯро░рпН.\n\nроЗроирпНрод рокрпЛро╕рпНроЯро░рпН роЯро┐роЪрпИройрпН роЕро│ро╡рпБ:\n- width: "
  ++ toString POSTER_WIDTH
  ++ " px\n- height: "
  ++ toString POSTER_HEIGHT
  ++ " px\n- роорпЗро▓рпЗ ~1200 px: родро▓рпИрокрпНрокрпБ, subheadline, main body рооро▒рпНро▒рпБроорпН bullet points.\n- роироЯрпБро╡ро┐ро▓рпН ~150 px: CTA (call-to-action) line.\n- роХрпАро┤рпЗ "
  ++ toString FOOTER_HEIGHT
  ++ " px: роПроЬрпЖройрпНроЯрпН рокрпБроХрпИрокрпНрокроЯроорпН, рокрпЖропро░рпН, role, phone number footer роХрпНроХрпБ RESERVED.\nроЕродройро╛ро▓рпН роЯрпЖроХрпНро╕рпНроЯрпН роХрпБро▒рпБроХро┐роп, readable рооро▒рпНро▒рпБроорпН роХрпНро░ро╡рпБроЯрпН роЗро▓рпНро▓ро╛род рооро╛родро┐ро░ро┐ роЗро░рпБроХрпНроХрогрпБроорпН.\n\nроорпКро┤ро┐:\n- роЗропро▓рпНрокро╛рой рокрпЗроЪрпНроЪрпБ родрооро┐ро┤ро┐ро▓рпН (родрооро┐ро┤рпНроиро╛роЯрпНроЯро┐ро▓рпН роЗройрпНро╖рпВро░ройрпНро╕рпН роПроЬрпЖройрпНроЯрпН рокрпЗроЪрпБро▒ рооро╛родро┐ро░ро┐).\n- роХроЯро┐ройрооро╛рой / ро▓ро┐роЯро░ро░ро┐ родрооро┐ро┤рпН ро╡рпЗрогрпНроЯро╛роорпН.\n- English words MIX рокрогрпНрогро╛родрпЗ (numbers ok).\n\n"
  ++ build_style_block style_mode
  ++ "\n\nTEXT LIMITS (рооро┐роХ роЕро╡роЪро┐ропроорпН рокро┐ройрпНрокро▒рпНро▒рпБ):\n- headline_ta: роЕродро┐роХрокроЯрпНроЪроорпН 22тАУ25 родрооро┐ро┤рпН роОро┤рпБродрпНродрпБроХро│рпН роЕро│ро╡рпБроХрпНроХрпБ. 1тАУ2 ро╡ро░ро┐ ро╣рпБроХрпН роороЯрпНроЯрпБроорпН.\n- subheadline_ta: max 70тАУ80 роОро┤рпБродрпНродрпБроХро│рпН.\n- body_paragraph_ta: max 220тАУ250 роОро┤рпБродрпНродрпБроХро│рпН (3тАУ4 роЪро┐ройрпНрой ро╡ро╛роХрпНроХро┐ропроЩрпНроХро│рпН роЕро▓рпНро▓родрпБ 5тАУ7 роЪро┐ройрпНрой conversation lines).\n- bullet_points_ta: 3 bullets роороЯрпНроЯрпБроорпН. роТро╡рпНро╡рпКро░рпБ bullet роТро░рпБ ро╡ро░ро┐ (max 45 роОро┤рпБродрпНродрпБроХро│рпН).\n- cta_line_ta: short CTA, max 60 роОро┤рпБродрпНродрпБроХро│рпН.\n\nCONTENT STRUCTURE (родрооро┐ро┤ро┐ро▓рпН роиро┐ро░рокрпНрок):\n\n1) headline_ta\n2) subheadline_ta\n3) body_paragraph_ta\n4) bullet_points_ta  (3 strings)\n5) cta_line_ta\n6) color_theme :  \"blue_orange\" | \"green_gold\" | \"red_yellow\" | \"yellow_blue\"\n7) text_colors:\n   \x7b\n     \"headline\": \"dark_blue | navy | red | maroon | dark_green\",\n     \"body\": \"black | dark_gray | dark_blue\",\n     \"cta\": \"red | dark_blue | green | orange\"\n   \x7d\n\nSTRICTLY роЗроирпНрод JSON format роороЯрпНроЯрпБроорпН return рокрогрпНрогрпБ\n(extra text, explanation, markdown роОродрпБро╡рпБроорпН роЗро▓рпНро▓ро╛рооро▓рпН):\n\n\x7b\n  \"headline_ta\": \"...\",\n  \"subheadline_ta\": \"...\",\n  \"body_paragraph_ta\": \"...\",\n  \"bullet_points_ta\": [\"...\", \"...\", \"...\"],\n  \"cta_line_ta\": \"...\",\n  \"color_theme\": \"blue_orange\",\n  \"text_colors\": \x7b\n    \"headline\": \"dark_blue\",\n    \"body\": \"black\",\n    \"cta\": \"red\"\n  \x7d\n\x7d\n"

/-- Number of occurrences of `pat` as a substring: the number of start
positions at which `pat` is a prefix of the remaining text. -/
def countOccs (pat : List Char) : List Char → Nat
  | [] => if pat.isEmpty then 1 else 0
  | c :: rest =>
      (if pat.isPrefixOf (c :: rest) then 1 else 0) + countOccs pat rest

/-- Substring-occurrence count on strings. -/
def countSub (s pat : String) : Nat := countOccs pat.data s.data

/-- The color lookup table of `color_from_name` (src/main.py lines 46-60). -/
def colorTable : List (String × String) :=
  [("dark_blue", "#0f172a"),
   ("navy", "#0f172a"),
   ("blue", "#1d4ed8"),
   ("sky_blue", "#0ea5e9"),
   ("dark_green", "#166534"),
   ("green", "#16a34a"),
   ("red", "#b91c1c"),
   ("maroon", "#7f1d1d"),
   ("orange", "#ea580c"),
   ("gold", "#facc15"),
   ("black", "#111827"),
   ("dark_gray", "#374151"),
   ("white", "#f9fafb")]

/-- `color_from_name` (src/main.py lines 45-61): `table.get(name, fallback)`. -/
def color_from_name (nm : String) (fallback : String := "#111827") : String :=
  (colorTable.lookup nm).getD fallback

/-- `theme_colors` (src/main.py lines 64-72): theme name to the
`(top, bottom, footer)` color triple, defaulting to the `blue_orange`
triple. -/
def theme_colors (theme : String) : String × String × String :=
  if theme = "green_gold" then ("#e8f7eb", "#fef6d8", "#14532d")
  else if theme = "red_yellow" then ("#fee2e2", "#fef9c3", "#7f1d1d")
  else if theme = "yellow_blue" then ("#fef9c3", "#dbeafe", "#1e3a8a")
  else ("#e0f2fe", "#ffedd5", "#0f172a")

/-- The base64 alphabet (RFC 4648), as used by `base64.b64encode`:
the 26 uppercase letters, the 26 lowercase letters, the 10 digits,
then `+` and `/`. -/
def b64chars : List Char :=
  (List.range 26).map (fun i => Char.ofNat (65 + i)) ++
    (List.range 26).map (fun i => Char.ofNat (97 + i)) ++
    (List.range 10).map (fun i => Char.ofNat (48 + i)) ++ ['+', '/']

/-- The alphabet character of a six-bit value. -/
def b64CharOf (n : Nat) : Char := b64chars.getD n 'A'

/-- `base64.b64encode` (src/main.py line 479) on a byte sequence:
three bytes become four sextet characters, a final group of one or two
bytes is padded with `=`. -/
def b64encode : List (Fin 256) → List Char
  | [] => []
  | [a] =>
      [b64CharOf (a.val / 4), b64CharOf (a.val % 4 * 16), '=', '=']
  | [a, b] =>
      [b64CharOf (a.val / 4), b64CharOf (a.val % 4 * 16 + b.val / 16),
       b64CharOf (b.val % 16 * 4), '=']
  | a :: b :: c :: t =>
      let n := a.val * 65536 + b.val * 256 + c.val
      [b64CharOf (n / 262144), b64CharOf (n / 4096 % 64),
       b64CharOf (n / 64 % 64), b64CharOf (n % 64)] ++ b64encode t

/-- Index of a character in the base64 alphabet. -/
def b64decVal (c : Char) : Option Nat :=
  let i := b64chars.indexOf c
  if i < 64 then some i else none

/-- Base64 decoding of a well-padded encoding, producing the byte values;
used to state that `b64encode` represents exactly the input bytes. -/
def b64decode : List Char → Option (List Nat)
  | c1 :: c2 :: c3 :: c4 :: rest =>
      if c3 = '=' ∧ c4 = '=' ∧ rest = [] then
        (b64decVal c1).bind (fun v1 => (b64decVal c2).map (fun v2 =>
          [v1 * 4 + v2 / 16]))
      else if c4 = '=' ∧ rest = [] then
        (b64decVal c1).bind (fun v1 => (b64decVal c2).bind (fun v2 =>
          (b64decVal c3).map (fun v3 =>
            [v1 * 4 + v2 / 16, v2 % 16 * 16 + v3 / 4])))
      else
        (b64decVal c1).bind (fun v1 => (b64decVal c2).bind (fun v2 =>
          (b64decVal c3).bind (fun v3 => (b64decVal c4).bind (fun v4 =>
            (b64decode rest).map (fun bs =>
              let n := v1 * 262144 + v2 * 4096 + v3 * 64 + v4
              [n / 65536, n / 256 % 256, n % 256] ++ bs)))))
  | [] => some []
  | _ => none

/-- Lines 479-480: the agent photo embedded as a data URL with the fixed
declared MIME type `image/png`, whatever the actual photo encoding. -/
def photo_data_url (agent_img_bytes : List (Fin 256)) : String :=
  "data:image/png;base64," ++ String.mk (b64encode agent_img_bytes)


section DictLemmas

/-- Looking up the key just written returns the written value. -/
theorem get?_insertKey_self (l : List (String × Json)) (k : String) (v : Json) :
    get? (insertKey l k v) k = some v := by
  induction l with
  | nil => simp [insertKey, get?]
  | cons hd t ih =>
      obtain ⟨k2, w⟩ := hd
      by_cases hk : k2 = k
      · simp [insertKey, hk, get?]
      · simp [insertKey, hk, get?, ih]

/-- Writing one key does not change the lookup of another. -/
theorem get?_insertKey_ne (l : List (String × Json)) (k k2 : String) (v : Json)
    (h : k ≠ k2) : get? (insertKey l k v) k2 = get? l k2 := by
  induction l with
  | nil => simp [insertKey, get?, h]
  | cons hd t ih =>
      obtain ⟨k3, w⟩ := hd
      by_cases hk : k3 = k
      · subst hk
        simp [insertKey, get?, h, ih]
      · simp [insertKey, hk, get?, ih]

/-- Rewriting a key to the value it already has is the identity. -/
theorem insertKey_of_get?_eq (l : List (String × Json)) (k : String) (v : Json)
    (h : get? l k = some v) : insertKey l k v = l := by
  induction l with
  | nil => simp [get?] at h
  | cons hd t ih =>
      obtain ⟨k2, w⟩ := hd
      by_cases hk : k2 = k
      · subst hk
        simp [get?] at h
        simp [insertKey, h]
      · simp [get?, hk] at h
        simp [insertKey, hk, ih h]

/-- Key presence after a write: the written key plus the old keys. -/
theorem isSome_get?_insertKey (l : List (String × Json)) (k k2 : String) (v : Json) :
    (get? (insertKey l k v) k2).isSome = true ↔
      (k2 = k ∨ (get? l k2).isSome = true) := by
  by_cases hk : k2 = k
  · subst hk
    simp [get?_insertKey_self]
  · rw [get?_insertKey_ne l k k2 v (fun he => hk he.symm)]
    simp [hk]

end DictLemmas

section NormalizeLemmas

/-- The assigned theme is always one of the four known names. -/
theorem themeOf_mem (v : Json) : themeOf v ∈ KNOWN_THEMES := by
  cases v with
  | str s =>
      have he : themeOf (Json.str s) =
          if s ∈ KNOWN_THEMES then s else "blue_orange" := rfl
      rw [he]
      by_cases hs : s ∈ KNOWN_THEMES
      · rw [if_pos hs]; exact hs
      · rw [if_neg hs]; simp [KNOWN_THEMES]
  | null => simp [themeOf, KNOWN_THEMES]
  | bool b => simp [themeOf, KNOWN_THEMES]
  | num n => simp [themeOf, KNOWN_THEMES]
  | arr xs => simp [themeOf, KNOWN_THEMES]
  | obj kvs => simp [themeOf, KNOWN_THEMES]

/-- A parsed list value passes through the `or []` / `isinstance` logic
unchanged. -/
theorem bulletsOf_arr (xs : List Json) : bulletsOf (Json.arr xs) = xs := by
  cases xs with
  | nil => rfl
  | cons x t => rfl

/-- A truthy non-list value is wrapped as the singleton of its `str`. -/
theorem bulletsOf_truthy_notArr (v : Json) (ht : pyTruthy v = true)
    (ha : ∀ xs, v ≠ Json.arr xs) : bulletsOf v = [Json.str (pyStr v)] := by
  unfold bulletsOf
  rw [if_pos ht]
  cases v with
  | arr xs => exact absurd rfl (ha xs)
  | null => rfl
  | bool b => rfl
  | num n => rfl
  | str s => rfl
  | obj kvs => rfl

/-- A falsy value is replaced by the empty list. -/
theorem bulletsOf_falsy (v : Json) (ht : pyTruthy v = false) :
    bulletsOf v = [] := by
  unfold bulletsOf
  rw [if_neg (by simp [ht])]

/-- The rebuilt `text_colors` of a parsed dict: role values are looked up
with the documented defaults (an empty parsed dict takes the falsy branch
but yields the same result). -/
theorem textColorsOf_obj (tkvs : List (String × Json)) :
    textColorsOf (Json.obj tkvs) =
      some [("headline", (get? tkvs "headline").getD (Json.str "dark_blue")),
            ("body", (get? tkvs "body").getD (Json.str "black")),
            ("cta", (get? tkvs "cta").getD (Json.str "red"))] := by
  cases tkvs with
  | nil => rfl
  | cons e t => rfl

/-- Whenever the `text_colors` step succeeds, the produced dict has
exactly the three roles, in order. -/
theorem textColorsOf_shape (v : Json) (tc : List (String × Json))
    (h : textColorsOf v = some tc) :
    ∃ hd bd ct, tc = [("headline", hd), ("body", bd), ("cta", ct)] := by
  unfold textColorsOf at h
  split at h
  · exact ⟨_, _, _, (Option.some.inj h).symm⟩
  · exact Option.noConfusion h

/-- Decomposition of a successful run of the normalization block:
the result is the bullets stage's dict with `text_colors` written, and
the `text_colors` step succeeded on the value found there. -/
theorem normalizeParsed_some_eq (kvs p : List (String × Json))
    (h : normalizeParsed kvs = some p) :
    ∃ tc,
      textColorsOf ((get? (normalize_bullets (normalize_theme kvs))
        "text_colors").getD Json.null) = some tc ∧
      p = insertKey (normalize_bullets (normalize_theme kvs))
            "text_colors" (Json.obj tc) := by
  unfold normalizeParsed normalize_text_colors at h
  cases htc : textColorsOf ((get? (normalize_bullets (normalize_theme kvs))
      "text_colors").getD Json.null) with
  | none => rw [htc] at h; exact Option.noConfusion h
  | some tc =>
      rw [htc] at h
      exact ⟨tc, rfl, (Option.some.inj h).symm⟩

end NormalizeLemmas

section ParseInversion

/-- A successful `handleCandidate` comes from a parsed object that the
normalization block accepted. -/
theorem handleCandidate_ok_inv (cap : List Char) (p : List (String × Json))
    (h : handleCandidate cap = Except.ok p) :
    ∃ kvs, normalizeParsed kvs = some p := by
  unfold handleCandidate at h
  cases hl : jsonLoads cap with
  | none => rw [hl] at h; exact Except.noConfusion h
  | some v =>
      rw [hl] at h
      cases v with
      | obj kvs =>
          have h2 : (match normalizeParsed kvs with
              | some q => Except.ok q
              | none =>
                  (Except.error GenError.attributeError :
                    Except GenError (List (String × Json)))) = Except.ok p := h
          cases hn : normalizeParsed kvs with
          | none => rw [hn] at h2; exact Except.noConfusion h2
          | some q =>
              rw [hn] at h2
              exact ⟨kvs, by rw [hn, Except.ok.inj h2]⟩
      | null => exact Except.noConfusion h
      | bool b => exact Except.noConfusion h
      | num n => exact Except.noConfusion h
      | str s => exact Except.noConfusion h
      | arr xs => exact Except.noConfusion h

/-- A successful `parse_response` comes from a parsed object that the
normalization block accepted. -/
theorem parse_response_ok_inv (raw : String) (p : List (String × Json))
    (h : parse_response raw = Except.ok p) :
    ∃ kvs, normalizeParsed kvs = some p := by
  unfold parse_response parse_stripped at h
  by_cases he : (py_strip raw.data).isEmpty
  · rw [if_pos he] at h; exact Except.noConfusion h
  · rw [if_neg he] at h
    cases hf : fencedSearch (py_strip raw.data) with
    | some cap => rw [hf] at h; exact handleCandidate_ok_inv cap p h
    | none =>
        rw [hf] at h
        cases hb : brace_scan (py_strip raw.data) with
        | some cap => rw [hb] at h; exact handleCandidate_ok_inv cap p h
        | none => rw [hb] at h; exact Except.noConfusion h

end ParseInversion

/-- C1: for every raw response text from which parsing succeeds, the
returned copy record has a `color_theme` that is one of the four known
enum values, a `bullet_points_ta` list of length at most 3, and a
`text_colors` record with all three roles present, however malformed the
parsed JSON object was. -/
theorem C1_success_guarantee (raw : String) (p : List (String × Json))
    (h : parse_response raw = Except.ok p) :
    (∃ t, get? p "color_theme" = some (Json.str t) ∧ t ∈ KNOWN_THEMES) ∧
    (∃ bs, get? p "bullet_points_ta" = some (Json.arr bs) ∧ bs.length ≤ 3) ∧
    (∃ hd bd ct, get? p "text_colors" =
        some (Json.obj [("headline", hd), ("body", bd), ("cta", ct)])) := by
  obtain ⟨kvs, hn⟩ := parse_response_ok_inv raw p h
  obtain ⟨tc, htc, hp⟩ := normalizeParsed_some_eq kvs p hn
  obtain ⟨hd, bd, ct, hshape⟩ := textColorsOf_shape _ tc htc
  subst hp
  refine ⟨⟨themeOf ((get? kvs "color_theme").getD (Json.str "blue_orange")),
           ?_, themeOf_mem _⟩,
          ⟨(bulletsOf ((get? (normalize_theme kvs)
              "bullet_points_ta").getD Json.null)).take 3, ?_, ?_⟩,
          ⟨hd, bd, ct, ?_⟩⟩
  · rw [get?_insertKey_ne _ "text_colors" "color_theme" _ (by decide)]
    unfold normalize_bullets
    rw [get?_insertKey_ne _ "bullet_points_ta" "color_theme" _ (by decide)]
    unfold normalize_theme
    exact get?_insertKey_self _ _ _
  · rw [get?_insertKey_ne _ "text_colors" "bullet_points_ta" _ (by decide)]
    unfold normalize_bullets
    exact get?_insertKey_self _ _ _
  · exact List.length_take_le 3 _
  · rw [get?_insertKey_self, hshape]

/-- Witness for C1 at the concrete raw response `{"a": 1}`. -/
theorem C1_success_guarantee_witness :
    (∃ t, get? [("a", Json.num 1), ("color_theme", Json.str "blue_orange"),
          ("bullet_points_ta", Json.arr []),
          ("text_colors", Json.obj [("headline", Json.str "dark_blue"),
            ("body", Json.str "black"), ("cta", Json.str "red")])]
          "color_theme" = some (Json.str t) ∧ t ∈ KNOWN_THEMES) ∧
    (∃ bs, get? [("a", Json.num 1), ("color_theme", Json.str "blue_orange"),
          ("bullet_points_ta", Json.arr []),
          ("text_colors", Json.obj [("headline", Json.str "dark_blue"),
            ("body", Json.str "black"), ("cta", Json.str "red")])]
          "bullet_points_ta" = some (Json.arr bs) ∧ bs.length ≤ 3) ∧
    (∃ hd bd ct, get? [("a", Json.num 1), ("color_theme", Json.str "blue_orange"),
          ("bullet_points_ta", Json.arr []),
          ("text_colors", Json.obj [("headline", Json.str "dark_blue"),
            ("body", Json.str "black"), ("cta", Json.str "red")])]
          "text_colors" =
        some (Json.obj [("headline", hd), ("body", bd), ("cta", ct)])) :=
  C1_success_guarantee "\x7b\"a\": 1\x7d"
    [("a", Json.num 1), ("color_theme", Json.str "blue_orange"),
     ("bullet_points_ta", Json.arr []),
     ("text_colors", Json.obj [("headline", Json.str "dark_blue"),
       ("body", Json.str "black"), ("cta", Json.str "red")])] rfl

section NormalizedProjections

/-- What a successful normalization stores under `bullet_points_ta`. -/
theorem get?_bullets_of_normalized (kvs p : List (String × Json))
    (h : normalizeParsed kvs = some p) :
    get? p "bullet_points_ta" =
      some (Json.arr ((bulletsOf ((get? kvs
        "bullet_points_ta").getD Json.null)).take 3)) := by
  obtain ⟨tc, htc, hp⟩ := normalizeParsed_some_eq kvs p h
  subst hp
  rw [get?_insertKey_ne _ "text_colors" "bullet_points_ta" _ (by decide)]
  unfold normalize_bullets
  rw [get?_insertKey_self]
  rw [show get? (normalize_theme kvs) "bullet_points_ta" =
        get? kvs "bullet_points_ta" from
      get?_insertKey_ne _ "color_theme" "bullet_points_ta" _ (by decide)]

/-- What a successful normalization stores under `color_theme`. -/
theorem get?_theme_of_normalized (kvs p : List (String × Json))
    (h : normalizeParsed kvs = some p) :
    get? p "color_theme" =
      some (Json.str (themeOf ((get? kvs
        "color_theme").getD (Json.str "blue_orange")))) := by
  obtain ⟨tc, htc, hp⟩ := normalizeParsed_some_eq kvs p h
  subst hp
  rw [get?_insertKey_ne _ "text_colors" "color_theme" _ (by decide)]
  unfold normalize_bullets
  rw [get?_insertKey_ne _ "bullet_points_ta" "color_theme" _ (by decide)]
  unfold normalize_theme
  exact get?_insertKey_self _ _ _

/-- What a successful normalization stores under `text_colors`: the
rebuilt role dict, computed from the parsed `text_colors` value. -/
theorem get?_tc_of_normalized (kvs p : List (String × Json))
    (h : normalizeParsed kvs = some p) :
    ∃ tc, textColorsOf ((get? kvs "text_colors").getD Json.null) = some tc ∧
      get? p "text_colors" = some (Json.obj tc) := by
  obtain ⟨tc, htc, hp⟩ := normalizeParsed_some_eq kvs p h
  subst hp
  rw [show get? (normalize_bullets (normalize_theme kvs)) "text_colors" =
        get? kvs "text_colors" from ?_] at htc
  · exact ⟨tc, htc, get?_insertKey_self _ _ _⟩
  · unfold normalize_bullets
    rw [get?_insertKey_ne _ "bullet_points_ta" "text_colors" _ (by decide)]
    unfold normalize_theme
    exact get?_insertKey_ne _ "color_theme" "text_colors" _ (by decide)

end NormalizedProjections

/-- The length of the normalized bullet list, when present. -/
def bulletsLenOf (p : List (String × Json)) : Option Nat :=
  match get? p "bullet_points_ta" with
  | some (Json.arr xs) => some xs.length
  | _ => none

/-- C2 counterexample: on the input `{invalid` the opening brace never
balances, so the balanced-brace scan finds no candidate and the parser
fails with `NoJsonFound` (carrying the raw text), not with
`InvalidJson` as the claim states. -/
theorem C2_counterexample :
    parse_response "\x7binvalid" =
      Except.error (GenError.noJsonFound "\x7binvalid") ∧
    GenError.noJsonFound "\x7binvalid" ≠ GenError.invalidJson "\x7binvalid" :=
  ⟨rfl, by decide⟩

/-- C2 (amended): the parser fails with `EmptyResponse` exactly on empty
raw text, with `NoJsonFound` on inputs with no extractable candidate —
both `no braces here` and `\x7binvalid`, whose opening brace never
balances — and with `InvalidJson` on a balanced-brace candidate that is
not parseable JSON, such as `\x7binvalid\x7d`; each failure carries its
diagnostic context and no copy record is produced. -/
theorem C2_error_paths :
    parse_response "" = Except.error GenError.emptyResponse ∧
    parse_response "no braces here" =
      Except.error (GenError.noJsonFound "no braces here") ∧
    parse_response "\x7binvalid" =
      Except.error (GenError.noJsonFound "\x7binvalid") ∧
    parse_response "\x7binvalid\x7d" =
      Except.error (GenError.invalidJson "\x7binvalid\x7d") :=
  ⟨rfl, rfl, rfl, rfl⟩

/-- C3 counterexample: a non-sequence but falsy `bullet_points_ta` (the
empty string) is not wrapped as a single-element sequence — the `or []`
of line 242 replaces it and normalization yields the empty list. -/
theorem C3_counterexample :
    normalizeParsed [("bullet_points_ta", Json.str "")] =
      some [("bullet_points_ta", Json.arr []),
            ("color_theme", Json.str "blue_orange"),
            ("text_colors", Json.obj [("headline", Json.str "dark_blue"),
              ("body", Json.str "black"), ("cta", Json.str "red")])] ∧
    bulletsLenOf [("bullet_points_ta", Json.arr []),
            ("color_theme", Json.str "blue_orange"),
            ("text_colors", Json.obj [("headline", Json.str "dark_blue"),
              ("body", Json.str "black"), ("cta", Json.str "red")])] = some 0 :=
  ⟨rfl, rfl⟩

/-- C3 (amended): normalization of `bullet_points_ta` truncates any
sequence to its first 3 elements preserving order and never pads; it
wraps a *truthy* non-sequence value as a single-element sequence, while
a falsy value (absent, null, false, 0, empty string, empty object) is
replaced by the empty sequence. -/
theorem C3_bullets_normalization (kvs p : List (String × Json))
    (h : normalizeParsed kvs = some p) :
    (∀ xs, get? kvs "bullet_points_ta" = some (Json.arr xs) →
        get? p "bullet_points_ta" = some (Json.arr (xs.take 3))) ∧
    (∀ xs, get? kvs "bullet_points_ta" = some (Json.arr xs) → xs.length ≤ 3 →
        get? p "bullet_points_ta" = some (Json.arr xs)) ∧
    (∀ v, get? kvs "bullet_points_ta" = some v → (∀ xs, v ≠ Json.arr xs) →
        pyTruthy v = true →
        get? p "bullet_points_ta" = some (Json.arr [Json.str (pyStr v)])) ∧
    (∀ v, get? kvs "bullet_points_ta" = some v → pyTruthy v = false →
        get? p "bullet_points_ta" = some (Json.arr [])) := by
  have hb := get?_bullets_of_normalized kvs p h
  refine ⟨?_, ?_, ?_, ?_⟩
  · intro xs hxs
    rw [hb, hxs, Option.getD_some, bulletsOf_arr]
  · intro xs hxs hlen
    rw [hb, hxs, Option.getD_some, bulletsOf_arr, List.take_of_length_le hlen]
  · intro v hv hna ht
    rw [hb, hv, Option.getD_some, bulletsOf_truthy_notArr v ht hna]
    rfl
  · intro v hv hf
    rw [hb, hv, Option.getD_some, bulletsOf_falsy v hf]
    rfl

/-- Witness for C3 at a parsed object with five bullet strings: the
result is exactly the first three, in order. -/
theorem C3_bullets_normalization_witness :
    get? [("bullet_points_ta",
            Json.arr [Json.str "b1", Json.str "b2", Json.str "b3"]),
          ("color_theme", Json.str "blue_orange"),
          ("text_colors", Json.obj [("headline", Json.str "dark_blue"),
            ("body", Json.str "black"), ("cta", Json.str "red")])]
        "bullet_points_ta" =
      some (Json.arr (([Json.str "b1", Json.str "b2", Json.str "b3",
        Json.str "b4", Json.str "b5"]).take 3)) :=
  (C3_bullets_normalization
      [("bullet_points_ta", Json.arr [Json.str "b1", Json.str "b2",
         Json.str "b3", Json.str "b4", Json.str "b5"])]
      [("bullet_points_ta",
         Json.arr [Json.str "b1", Json.str "b2", Json.str "b3"]),
       ("color_theme", Json.str "blue_orange"),
       ("text_colors", Json.obj [("headline", Json.str "dark_blue"),
         ("body", Json.str "black"), ("cta", Json.str "red")])]
      rfl).1
    [Json.str "b1", Json.str "b2", Json.str "b3", Json.str "b4", Json.str "b5"]
    rfl

/-- C4: normalization resolves an absent or unknown `color_theme` to the
default `blue_orange`, and each absent `text_colors` sub-role to its
documented constant (headline `dark_blue`, body `black`, cta `red`);
a wholly missing `text_colors` yields exactly that default triple. -/
theorem C4_defaulting (kvs p : List (String × Json))
    (h : normalizeParsed kvs = some p) :
    ((get? kvs "color_theme" = none ∨
        (∃ v, get? kvs "color_theme" = some v ∧
          ∀ s, v = Json.str s → s ∉ KNOWN_THEMES)) →
      get? p "color_theme" = some (Json.str "blue_orange")) ∧
    (get? kvs "text_colors" = none →
      get? p "text_colors" =
        some (Json.obj [("headline", Json.str "dark_blue"),
          ("body", Json.str "black"), ("cta", Json.str "red")])) ∧
    (∀ tkvs, get? kvs "text_colors" = some (Json.obj tkvs) →
      ∃ hd bd ct,
        get? p "text_colors" =
          some (Json.obj [("headline", hd), ("body", bd), ("cta", ct)]) ∧
        (get? tkvs "headline" = none → hd = Json.str "dark_blue") ∧
        (get? tkvs "body" = none → bd = Json.str "black") ∧
        (get? tkvs "cta" = none → ct = Json.str "red")) := by
  have hth := get?_theme_of_normalized kvs p h
  obtain ⟨tc, htc, hget⟩ := get?_tc_of_normalized kvs p h
  refine ⟨?_, ?_, ?_⟩
  · rintro (habs | ⟨v, hv, hunk⟩)
    · rw [hth, habs]
      rfl
    · rw [hth, hv, Option.getD_some]
      cases v with
      | str s =>
          have hs : s ∉ KNOWN_THEMES := hunk s rfl
          have he : themeOf (Json.str s) =
              if s ∈ KNOWN_THEMES then s else "blue_orange" := rfl
          rw [he, if_neg hs]
      | null => rfl
      | bool b => rfl
      | num n => rfl
      | arr xs => rfl
      | obj o => rfl
  · intro habs
    rw [habs, Option.getD_none] at htc
    have : tc = [("headline", Json.str "dark_blue"),
        ("body", Json.str "black"), ("cta", Json.str "red")] :=
      Option.some.inj htc.symm
    rw [hget, this]
  · intro tkvs htk
    rw [htk, Option.getD_some, textColorsOf_obj] at htc
    refine ⟨(get? tkvs "headline").getD (Json.str "dark_blue"),
            (get? tkvs "body").getD (Json.str "black"),
            (get? tkvs "cta").getD (Json.str "red"),
            ?_, ?_, ?_, ?_⟩
    · rw [hget, Option.some.inj htc.symm]
    · intro hr; rw [hr]; rfl
    · intro hr; rw [hr]; rfl
    · intro hr; rw [hr]; rfl

/-- Witness for C4 at the parsed object
`{color_theme: "purple_pink"}` (unknown theme, missing `text_colors`). -/
theorem C4_defaulting_witness :
    get? [("color_theme", Json.str "blue_orange"),
          ("bullet_points_ta", Json.arr []),
          ("text_colors", Json.obj [("headline", Json.str "dark_blue"),
            ("body", Json.str "black"), ("cta", Json.str "red")])]
        "color_theme" = some (Json.str "blue_orange") ∧
    get? [("color_theme", Json.str "blue_orange"),
          ("bullet_points_ta", Json.arr []),
          ("text_colors", Json.obj [("headline", Json.str "dark_blue"),
            ("body", Json.str "black"), ("cta", Json.str "red")])]
        "text_colors" =
      some (Json.obj [("headline", Json.str "dark_blue"),
        ("body", Json.str "black"), ("cta", Json.str "red")]) :=
  ⟨(C4_defaulting [("color_theme", Json.str "purple_pink")] _ rfl).1
     (Or.inr ⟨Json.str "purple_pink", rfl,
       fun s hs => by rw [← Json.str.inj hs]; decide⟩),
   (C4_defaulting [("color_theme", Json.str "purple_pink")] _ rfl).2.1 rfl⟩

/-- C10: normalization only rewrites the three keys `color_theme`,
`bullet_points_ta` and `text_colors`; every other key keeps its value,
and the key set grows by exactly those three keys. -/
theorem C10_frame (kvs p : List (String × Json))
    (h : normalizeParsed kvs = some p) :
    (∀ k, k ≠ "color_theme" → k ≠ "bullet_points_ta" → k ≠ "text_colors" →
        get? p k = get? kvs k) ∧
    (∀ k, (get? p k).isSome = true ↔
        ((get? kvs k).isSome = true ∨ k = "color_theme" ∨
          k = "bullet_points_ta" ∨ k = "text_colors")) := by
  obtain ⟨tc, htc, hp⟩ := normalizeParsed_some_eq kvs p h
  subst hp
  constructor
  · intro k h1 h2 h3
    rw [get?_insertKey_ne _ "text_colors" k _ (fun he => h3 he.symm)]
    unfold normalize_bullets
    rw [get?_insertKey_ne _ "bullet_points_ta" k _ (fun he => h2 he.symm)]
    unfold normalize_theme
    rw [get?_insertKey_ne _ "color_theme" k _ (fun he => h1 he.symm)]
  · intro k
    unfold normalize_bullets normalize_theme
    simp only [isSome_get?_insertKey]
    tauto

/-- Witness for C10: the unrelated key `headline_ta` of a concrete
parsed object is untouched by normalization. -/
theorem C10_frame_witness :
    get? [("headline_ta", Json.str "X"),
          ("color_theme", Json.str "blue_orange"),
          ("bullet_points_ta", Json.arr []),
          ("text_colors", Json.obj [("headline", Json.str "dark_blue"),
            ("body", Json.str "black"), ("cta", Json.str "red")])]
        "headline_ta" =
      get? [("headline_ta", Json.str "X")] "headline_ta" :=
  (C10_frame [("headline_ta", Json.str "X")] _ rfl).1 "headline_ta"
    (by decide) (by decide) (by decide)

/-- Whether the `text_colors` entry of a record is a dict containing the
given role key. -/
def textColorsKeyPresent (p : List (String × Json)) (r : String) : Bool :=
  match get? p "text_colors" with
  | some (Json.obj t) => (get? t r).isSome
  | _ => false

/-- C6 counterexample: a record with exactly 3 bullets, a known theme and
all three `text_colors` roles present is still changed by renormalization
when its `text_colors` dict carries an additional key — the rebuild of
lines 248-252 drops every key but the three roles. -/
theorem C6_counterexample :
    normalizeParsed
      [("headline_ta", Json.str "X"),
       ("color_theme", Json.str "blue_orange"),
       ("bullet_points_ta", Json.arr [Json.str "a", Json.str "b", Json.str "c"]),
       ("text_colors", Json.obj [("headline", Json.str "dark_blue"),
         ("body", Json.str "black"), ("cta", Json.str "red"),
         ("extra", Json.str "x")])] =
      some [("headline_ta", Json.str "X"),
       ("color_theme", Json.str "blue_orange"),
       ("bullet_points_ta", Json.arr [Json.str "a", Json.str "b", Json.str "c"]),
       ("text_colors", Json.obj [("headline", Json.str "dark_blue"),
         ("body", Json.str "black"), ("cta", Json.str "red")])] ∧
    get? [("headline_ta", Json.str "X"),
       ("color_theme", Json.str "blue_orange"),
       ("bullet_points_ta", Json.arr [Json.str "a", Json.str "b", Json.str "c"]),
       ("text_colors", Json.obj [("headline", Json.str "dark_blue"),
         ("body", Json.str "black"), ("cta", Json.str "red"),
         ("extra", Json.str "x")])] "color_theme" =
      some (Json.str "blue_orange") ∧
    bulletsLenOf
      [("headline_ta", Json.str "X"),
       ("color_theme", Json.str "blue_orange"),
       ("bullet_points_ta", Json.arr [Json.str "a", Json.str "b", Json.str "c"]),
       ("text_colors", Json.obj [("headline", Json.str "dark_blue"),
         ("body", Json.str "black"), ("cta", Json.str "red"),
         ("extra", Json.str "x")])] = some 3 ∧
    textColorsKeyPresent
      [("headline_ta", Json.str "X"),
       ("color_theme", Json.str "blue_orange"),
       ("bullet_points_ta", Json.arr [Json.str "a", Json.str "b", Json.str "c"]),
       ("text_colors", Json.obj [("headline", Json.str "dark_blue"),
         ("body", Json.str "black"), ("cta", Json.str "red"),
         ("extra", Json.str "x")])] "headline" = true ∧
    textColorsKeyPresent
      [("headline_ta", Json.str "X"),
       ("color_theme", Json.str "blue_orange"),
       ("bullet_points_ta", Json.arr [Json.str "a", Json.str "b", Json.str "c"]),
       ("text_colors", Json.obj [("headline", Json.str "dark_blue"),
         ("body", Json.str "black"), ("cta", Json.str "red"),
         ("extra", Json.str "x")])] "body" = true ∧
    textColorsKeyPresent
      [("headline_ta", Json.str "X"),
       ("color_theme", Json.str "blue_orange"),
       ("bullet_points_ta", Json.arr [Json.str "a", Json.str "b", Json.str "c"]),
       ("text_colors", Json.obj [("headline", Json.str "dark_blue"),
         ("body", Json.str "black"), ("cta", Json.str "red"),
         ("extra", Json.str "x")])] "cta" = true ∧
    textColorsKeyPresent
      [("headline_ta", Json.str "X"),
       ("color_theme", Json.str "blue_orange"),
       ("bullet_points_ta", Json.arr [Json.str "a", Json.str "b", Json.str "c"]),
       ("text_colors", Json.obj [("headline", Json.str "dark_blue"),
         ("body", Json.str "black"), ("cta", Json.str "red"),
         ("extra", Json.str "x")])] "extra" = true ∧
    textColorsKeyPresent
      [("headline_ta", Json.str "X"),
       ("color_theme", Json.str "blue_orange"),
       ("bullet_points_ta", Json.arr [Json.str "a", Json.str "b", Json.str "c"]),
       ("text_colors", Json.obj [("headline", Json.str "dark_blue"),
         ("body", Json.str "black"), ("cta", Json.str "red")])] "extra" = false :=
  ⟨rfl, rfl, rfl, rfl, rfl, rfl, rfl, rfl⟩

/-- C6 (amended): renormalizing a record with exactly 3 bullets in a
sequence, a known theme, and a `text_colors` dict consisting of exactly
the three roles (headline, body, cta, in the order normalization itself
produces) returns the record unchanged. -/
theorem C6_idempotent (kvs : List (String × Json)) (t : String)
    (bs : List Json) (hd bd ct : Json)
    (ht : get? kvs "color_theme" = some (Json.str t))
    (htk : t ∈ KNOWN_THEMES)
    (hb : get? kvs "bullet_points_ta" = some (Json.arr bs))
    (hb3 : bs.length = 3)
    (htc : get? kvs "text_colors" =
      some (Json.obj [("headline", hd), ("body", bd), ("cta", ct)])) :
    normalizeParsed kvs = some kvs := by
  have h1 : normalize_theme kvs = kvs := by
    unfold normalize_theme
    rw [ht, Option.getD_some]
    have he : themeOf (Json.str t) =
        if t ∈ KNOWN_THEMES then t else "blue_orange" := rfl
    rw [he, if_pos htk]
    exact insertKey_of_get?_eq kvs "color_theme" (Json.str t) ht
  have h2 : normalize_bullets kvs = kvs := by
    unfold normalize_bullets
    rw [hb, Option.getD_some, bulletsOf_arr,
      List.take_of_length_le (le_of_eq hb3)]
    exact insertKey_of_get?_eq _ _ _ hb
  have h3 : normalize_text_colors kvs = some kvs := by
    unfold normalize_text_colors
    rw [htc, Option.getD_some, textColorsOf_obj]
    have e1 : get? [("headline", hd), ("body", bd), ("cta", ct)]
        "headline" = some hd := rfl
    have e2 : get? [("headline", hd), ("body", bd), ("cta", ct)]
        "body" = some bd := rfl
    have e3 : get? [("headline", hd), ("body", bd), ("cta", ct)]
        "cta" = some ct := rfl
    rw [e1, e2, e3]
    show some (insertKey kvs "text_colors"
      (Json.obj [("headline", (some hd).getD (Json.str "dark_blue")),
        ("body", (some bd).getD (Json.str "black")),
        ("cta", (some ct).getD (Json.str "red"))])) = some kvs
    simp only [Option.getD_some]
    rw [insertKey_of_get?_eq _ _ _ htc]
  show normalize_text_colors (normalize_bullets (normalize_theme kvs)) = some kvs
  rw [h1, h2, h3]

/-- Witness for C6 at a concrete already-normalized record. -/
theorem C6_idempotent_witness :
    normalizeParsed
      [("color_theme", Json.str "green_gold"),
       ("bullet_points_ta", Json.arr [Json.str "a", Json.str "b", Json.str "c"]),
       ("text_colors", Json.obj [("headline", Json.str "navy"),
         ("body", Json.str "black"), ("cta", Json.str "red")])] =
      some [("color_theme", Json.str "green_gold"),
       ("bullet_points_ta", Json.arr [Json.str "a", Json.str "b", Json.str "c"]),
       ("text_colors", Json.obj [("headline", Json.str "navy"),
         ("body", Json.str "black"), ("cta", Json.str "red")])] :=
  C6_idempotent _ "green_gold"
    [Json.str "a", Json.str "b", Json.str "c"]
    (Json.str "navy") (Json.str "black") (Json.str "red")
    rfl (by decide) rfl rfl rfl

/-- C8: both color resolutions are total lookup-with-fallback functions:
`color_from_name` returns the fixed-table entry for known names
(`navy` ↦ `#0f172a`) and the caller's fallback otherwise, and
`theme_colors` returns the fixed triple for the four known themes and
the default `blue_orange` triple for any other input. -/
theorem C8_color_resolution :
    color_from_name "navy" "#000000" = "#0f172a" ∧
    color_from_name "unknown_color" "#000000" = "#000000" ∧
    (∀ nm fb v, colorTable.lookup nm = some v → color_from_name nm fb = v) ∧
    (∀ nm fb, colorTable.lookup nm = none → color_from_name nm fb = fb) ∧
    theme_colors "blue_orange" = ("#e0f2fe", "#ffedd5", "#0f172a") ∧
    theme_colors "green_gold" = ("#e8f7eb", "#fef6d8", "#14532d") ∧
    theme_colors "red_yellow" = ("#fee2e2", "#fef9c3", "#7f1d1d") ∧
    theme_colors "yellow_blue" = ("#fef9c3", "#dbeafe", "#1e3a8a") ∧
    (∀ t, t ∉ KNOWN_THEMES →
      theme_colors t = ("#e0f2fe", "#ffedd5", "#0f172a")) := by
  refine ⟨rfl, rfl, ?_, ?_, rfl, rfl, rfl, rfl, ?_⟩
  · intro nm fb v hv
    unfold color_from_name
    rw [hv]
    rfl
  · intro nm fb hv
    unfold color_from_name
    rw [hv]
    rfl
  · intro t ht
    simp only [KNOWN_THEMES, List.mem_cons, List.mem_singleton, not_or] at ht
    obtain ⟨h1, h2, h3, h4⟩ := ht
    unfold theme_colors
    rw [if_neg h2, if_neg h3, if_neg h4.1]

/-- Witness for C8: the quantified parts applied at `navy` with a
non-default fallback and at the unknown theme `purple_pink`. -/
theorem C8_color_resolution_witness :
    color_from_name "navy" "#ffffff" = "#0f172a" ∧
    color_from_name "no_such" "#ffffff" = "#ffffff" ∧
    theme_colors "purple_pink" = ("#e0f2fe", "#ffedd5", "#0f172a") :=
  ⟨C8_color_resolution.2.2.1 "navy" "#ffffff" "#0f172a" rfl,
   C8_color_resolution.2.2.2.1 "no_such" "#ffffff" rfl,
   C8_color_resolution.2.2.2.2.2.2.2.2 "purple_pink" (by decide)⟩

/-- Tail-recursive evaluator for `countOccs` (the accumulator stays a
small literal during kernel reduction). -/
def countOccsAux (pat : List Char) : List Char → Nat → Nat
  | [], acc => if pat.isEmpty then acc + 1 else acc
  | c :: rest, acc =>
      if pat.isPrefixOf (c :: rest) then countOccsAux pat rest (acc + 1)
      else countOccsAux pat rest acc

/-- The evaluator computes the occurrence count. -/
theorem countOccsAux_eq (pat : List Char) :
    ∀ cs acc, countOccsAux pat cs acc = acc + countOccs pat cs := by
  intro cs
  induction cs with
  | nil =>
      intro acc
      unfold countOccsAux countOccs
      by_cases h : pat.isEmpty
      · rw [if_pos h, if_pos h]
      · rw [if_neg h, if_neg h]
        omega
  | cons c rest ih =>
      intro acc
      unfold countOccsAux countOccs
      by_cases h : pat.isPrefixOf (c :: rest)
      · rw [if_pos h, if_pos h, ih]
        omega
      · rw [if_neg h, if_neg h, ih]
        omega

/-- `countSub` through the tail-recursive evaluator. -/
theorem countSub_eq (s pat : String) :
    countSub s pat = countOccsAux pat.data s.data 0 := by
  rw [countSub, countOccsAux_eq]
  omega

set_option maxRecDepth 200000 in
/-- C7: for every style mode string, the built prompt contains exactly
one style-specific instruction block and never more than one; the block
is chosen by exact match on the mode, with the direct-marketing
(standard) block as the default for any unrecognized mode. -/
theorem C7_style_block (mode : String) :
    countSub (build_prompt mode) styleConversation +
      countSub (build_prompt mode) styleFact +
      countSub (build_prompt mode) styleStandard = 1 ∧
    build_style_block "Conversation" = styleConversation ∧
    build_style_block "Fact-based awareness" = styleFact ∧
    (mode ≠ "Conversation" → mode ≠ "Fact-based awareness" →
      build_style_block mode = styleStandard) := by
  refine ⟨?_, rfl, rfl, ?_⟩
  · by_cases h1 : mode = "Conversation"
    · subst h1
      rw [countSub_eq, countSub_eq, countSub_eq]
      decide
    · by_cases h2 : mode = "Fact-based awareness"
      · subst h2
        rw [countSub_eq, countSub_eq, countSub_eq]
        decide
      · have hb : build_style_block mode = styleStandard := by
          unfold build_style_block
          rw [if_neg h1, if_neg h2]
        unfold build_prompt
        rw [hb, countSub_eq, countSub_eq, countSub_eq]
        decide
  · intro h1 h2
    unfold build_style_block
    rw [if_neg h1, if_neg h2]

/-- Witness for C7 at the unrecognized mode `some_other_mode`. -/
theorem C7_style_block_witness :
    countSub (build_prompt "some_other_mode") styleConversation +
      countSub (build_prompt "some_other_mode") styleFact +
      countSub (build_prompt "some_other_mode") styleStandard = 1 ∧
    build_style_block "some_other_mode" = styleStandard :=
  ⟨(C7_style_block "some_other_mode").1,
   (C7_style_block "some_other_mode").2.2.2 (by decide) (by decide)⟩

/-- Decoding inverts the alphabet on six-bit values. -/
theorem b64decVal_CharOf : ∀ n, n < 64 → b64decVal (b64CharOf n) = some n := by
  decide

/-- No alphabet character is the padding character. -/
theorem b64CharOf_ne_pad : ∀ n, n < 64 → ¬(b64CharOf n = '=') := by
  decide

/-- `b64decode` inverts `b64encode`: the encoding determines exactly the
input bytes. -/
theorem b64decode_encode :
    ∀ bs : List (Fin 256), b64decode (b64encode bs) = some (bs.map Fin.val)
  | [] => rfl
  | [a] => by
      have ha := a.isLt
      have h1 : a.val / 4 < 64 := by omega
      have h2 : a.val % 4 * 16 < 64 := by omega
      show b64decode [b64CharOf (a.val / 4), b64CharOf (a.val % 4 * 16),
        '=', '='] = some [a.val]
      simp only [b64decode]
      rw [if_pos ⟨trivial, trivial, trivial⟩, b64decVal_CharOf _ h1,
        b64decVal_CharOf _ h2]
      show some [a.val / 4 * 4 + a.val % 4 * 16 / 16] = some [a.val]
      have he : a.val / 4 * 4 + a.val % 4 * 16 / 16 = a.val := by omega
      rw [he]
  | [a, b] => by
      have ha := a.isLt
      have hb := b.isLt
      have h1 : a.val / 4 < 64 := by omega
      have h2 : a.val % 4 * 16 + b.val / 16 < 64 := by omega
      have h3 : b.val % 16 * 4 < 64 := by omega
      show b64decode [b64CharOf (a.val / 4),
        b64CharOf (a.val % 4 * 16 + b.val / 16),
        b64CharOf (b.val % 16 * 4), '='] = some [a.val, b.val]
      simp only [b64decode]
      rw [if_neg (fun hx => b64CharOf_ne_pad _ h3 hx.1),
        if_pos ⟨trivial, trivial⟩, b64decVal_CharOf _ h1, b64decVal_CharOf _ h2,
        b64decVal_CharOf _ h3]
      show some [a.val / 4 * 4 + (a.val % 4 * 16 + b.val / 16) / 16,
        (a.val % 4 * 16 + b.val / 16) % 16 * 16 + b.val % 16 * 4 / 4] =
        some [a.val, b.val]
      have e1 : a.val / 4 * 4 + (a.val % 4 * 16 + b.val / 16) / 16 =
          a.val := by omega
      have e2 : (a.val % 4 * 16 + b.val / 16) % 16 * 16 + b.val % 16 * 4 / 4 =
          b.val := by omega
      rw [e1, e2]
  | a :: b :: c :: t => by
      have ha := a.isLt
      have hb := b.isLt
      have hc := c.isLt
      have h1 : (a.val * 65536 + b.val * 256 + c.val) / 262144 < 64 := by omega
      have h2 : (a.val * 65536 + b.val * 256 + c.val) / 4096 % 64 < 64 := by
        omega
      have h3 : (a.val * 65536 + b.val * 256 + c.val) / 64 % 64 < 64 := by
        omega
      have h4 : (a.val * 65536 + b.val * 256 + c.val) % 64 < 64 := by omega
      have ih := b64decode_encode t
      show b64decode
        (b64CharOf ((a.val * 65536 + b.val * 256 + c.val) / 262144) ::
          b64CharOf ((a.val * 65536 + b.val * 256 + c.val) / 4096 % 64) ::
          b64CharOf ((a.val * 65536 + b.val * 256 + c.val) / 64 % 64) ::
          b64CharOf ((a.val * 65536 + b.val * 256 + c.val) % 64) ::
          b64encode t) =
        some (a.val :: b.val :: c.val :: t.map Fin.val)
      simp only [b64decode]
      rw [if_neg (fun hx => b64CharOf_ne_pad _ h3 hx.1),
        if_neg (fun hx => b64CharOf_ne_pad _ h4 hx.1),
        b64decVal_CharOf _ h1, b64decVal_CharOf _ h2,
        b64decVal_CharOf _ h3, b64decVal_CharOf _ h4, ih]
      show some
        (((a.val * 65536 + b.val * 256 + c.val) / 262144 * 262144 +
            (a.val * 65536 + b.val * 256 + c.val) / 4096 % 64 * 4096 +
            (a.val * 65536 + b.val * 256 + c.val) / 64 % 64 * 64 +
            (a.val * 65536 + b.val * 256 + c.val) % 64) / 65536 ::
          ((a.val * 65536 + b.val * 256 + c.val) / 262144 * 262144 +
            (a.val * 65536 + b.val * 256 + c.val) / 4096 % 64 * 4096 +
            (a.val * 65536 + b.val * 256 + c.val) / 64 % 64 * 64 +
            (a.val * 65536 + b.val * 256 + c.val) % 64) / 256 % 256 ::
          ((a.val * 65536 + b.val * 256 + c.val) / 262144 * 262144 +
            (a.val * 65536 + b.val * 256 + c.val) / 4096 % 64 * 4096 +
            (a.val * 65536 + b.val * 256 + c.val) / 64 % 64 * 64 +
            (a.val * 65536 + b.val * 256 + c.val) % 64) % 256 ::
          t.map Fin.val) =
        some (a.val :: b.val :: c.val :: t.map Fin.val)
      have e1 : ((a.val * 65536 + b.val * 256 + c.val) / 262144 * 262144 +
          (a.val * 65536 + b.val * 256 + c.val) / 4096 % 64 * 4096 +
          (a.val * 65536 + b.val * 256 + c.val) / 64 % 64 * 64 +
          (a.val * 65536 + b.val * 256 + c.val) % 64) = 
          a.val * 65536 + b.val * 256 + c.val := by omega
      rw [e1]
      have e2 : (a.val * 65536 + b.val * 256 + c.val) / 65536 = a.val := by
        omega
      have e3 : (a.val * 65536 + b.val * 256 + c.val) / 256 % 256 = b.val := by
        omega
      have e4 : (a.val * 65536 + b.val * 256 + c.val) % 256 = c.val := by omega
      rw [e2, e3, e4]

/-- C9: for every uploaded photo byte sequence, the data URL embedded in
the poster is the fixed `image/png` MIME prefix followed by the base64
encoding of exactly those bytes, regardless of the photo's actual
encoding (the decoder recovers the bytes from the payload). -/
theorem C9_photo_embedding (bs : List (Fin 256)) :
    photo_data_url bs =
      "data:image/png;base64," ++ String.mk (b64encode bs) ∧
    b64decode (b64encode bs) = some (bs.map Fin.val) :=
  ⟨rfl, b64decode_encode bs⟩

section BraceScanStructure

/-- `findOpen` returns a suffix that starts with the opening brace. -/
theorem findOpen_some (cs suf : List Char) (h : findOpen cs = some suf) :
    ∃ pre t, cs = pre ++ suf ∧ suf = '\x7b' :: t := by
  induction cs with
  | nil => exact Option.noConfusion h
  | cons c t ih =>
      unfold findOpen at h
      by_cases hc : c = '\x7b'
      · rw [if_pos hc] at h
        refine ⟨[], t, by simp [Option.some.inj h], ?_⟩
        rw [← Option.some.inj h, hc]
      · rw [if_neg hc] at h
        obtain ⟨pre, t2, hcs, hsuf⟩ := ih h
        exact ⟨c :: pre, t2, by rw [List.cons_append, ← hcs], hsuf⟩

/-- The depth scan consumes a prefix of its input. -/
theorem scanClose_append (cs : List Char) :
    ∀ d cap, scanClose d cs = some cap → ∃ rest, cs = cap ++ rest := by
  induction cs with
  | nil => intro d cap h; exact Option.noConfusion h
  | cons c t ih =>
      intro d cap h
      unfold scanClose at h
      by_cases h1 : c = '\x7b'
      · rw [if_pos h1] at h
        obtain ⟨cap2, hc2, hmap⟩ := Option.map_eq_some'.mp h
        obtain ⟨rest, hr⟩ := ih (d + 1) cap2 hc2
        exact ⟨rest, by rw [← hmap, hr, List.cons_append]⟩
      · rw [if_neg h1] at h
        by_cases h2 : c = '\x7d'
        · rw [if_pos h2] at h
          by_cases h3 : d - 1 = 0
          · rw [if_pos h3] at h
            exact ⟨t, by rw [← Option.some.inj h, List.cons_append,
              List.nil_append]⟩
          · rw [if_neg h3] at h
            obtain ⟨cap2, hc2, hmap⟩ := Option.map_eq_some'.mp h
            obtain ⟨rest, hr⟩ := ih (d - 1) cap2 hc2
            exact ⟨rest, by rw [← hmap, hr, List.cons_append]⟩
        · rw [if_neg h2] at h
          obtain ⟨cap2, hc2, hmap⟩ := Option.map_eq_some'.mp h
          obtain ⟨rest, hr⟩ := ih d cap2 hc2
          exact ⟨rest, by rw [← hmap, hr, List.cons_append]⟩

/-- The depth scan's capture ends with a closing brace. -/
theorem scanClose_last (cs : List Char) :
    ∀ d cap, scanClose d cs = some cap → ∃ q, cap = q ++ ['\x7d'] := by
  induction cs with
  | nil => intro d cap h; exact Option.noConfusion h
  | cons c t ih =>
      intro d cap h
      unfold scanClose at h
      by_cases h1 : c = '\x7b'
      · rw [if_pos h1] at h
        obtain ⟨cap2, hc2, hmap⟩ := Option.map_eq_some'.mp h
        obtain ⟨q, hq⟩ := ih (d + 1) cap2 hc2
        exact ⟨c :: q, by rw [← hmap, hq, List.cons_append]⟩
      · rw [if_neg h1] at h
        by_cases h2 : c = '\x7d'
        · rw [if_pos h2] at h
          by_cases h3 : d - 1 = 0
          · rw [if_pos h3] at h
            exact ⟨[], by rw [← Option.some.inj h, h2]; rfl⟩
          · rw [if_neg h3] at h
            obtain ⟨cap2, hc2, hmap⟩ := Option.map_eq_some'.mp h
            obtain ⟨q, hq⟩ := ih (d - 1) cap2 hc2
            exact ⟨c :: q, by rw [← hmap, hq, List.cons_append]⟩
        · rw [if_neg h2] at h
          obtain ⟨cap2, hc2, hmap⟩ := Option.map_eq_some'.mp h
          obtain ⟨q, hq⟩ := ih d cap2 hc2
          exact ⟨c :: q, by rw [← hmap, hq, List.cons_append]⟩

/-- When the balanced-brace scan captures its whole input, that input
starts with an opening brace and ends with a closing one. -/
theorem brace_scan_full (cs : List Char) (h : brace_scan cs = some cs) :
    (∃ t, cs = '\x7b' :: t) ∧ (∃ q, cs = q ++ ['\x7d']) := by
  unfold brace_scan at h
  obtain ⟨suf, hf, hsc⟩ := Option.bind_eq_some.mp h
  obtain ⟨pre, t, hcs, hsuf⟩ := findOpen_some cs suf hf
  obtain ⟨rest, hrest⟩ := scanClose_append suf 0 cs hsc
  have hlen : pre.length + (cs.length + rest.length) = cs.length := by
    have := congrArg List.length hcs
    rw [List.length_append] at this
    have h2 := congrArg List.length hrest
    rw [List.length_append] at h2
    omega
  have hpre : pre = [] := List.eq_nil_of_length_eq_zero (by omega)
  have hsufcs : suf = cs := by
    rw [hpre, List.nil_append] at hcs
    exact hcs.symm
  constructor
  · exact ⟨t, by rw [← hsufcs, hsuf]⟩
  · obtain ⟨q, hq⟩ := scanClose_last suf 0 cs hsc
    exact ⟨q, hq⟩

end BraceScanStructure

section StripAndSearchLemmas

/-- `dropWhile` is the identity when the first character is kept. -/
theorem dropWhile_eq_self_of_head (cs : List Char) (c : Char)
    (h : cs.head? = some c) (hc : isPyWs c = false) :
    cs.dropWhile isPyWs = cs := by
  cases cs with
  | nil => rfl
  | cons a t =>
      have ha : a = c := Option.some.inj h
      rw [List.dropWhile_cons, ha, hc]
      simp

/-- Stripping is the identity when neither end is whitespace. -/
theorem py_strip_eq_self (cs : List Char) (c1 c2 : Char)
    (h1 : cs.head? = some c1) (hws1 : isPyWs c1 = false)
    (h2 : cs.getLast? = some c2) (hws2 : isPyWs c2 = false) :
    py_strip cs = cs := by
  unfold py_strip
  rw [dropWhile_eq_self_of_head cs c1 h1 hws1]
  rw [dropWhile_eq_self_of_head cs.reverse c2
    (by rw [List.head?_reverse]; exact h2) hws2]
  exact List.reverse_reverse cs

/-- The fenced-block search fails on text with no backtick. -/
theorem fencedSearch_eq_none (cs : List Char) (h : '\x60' ∉ cs) :
    fencedSearch cs = none := by
  induction cs with
  | nil => rfl
  | cons c t ih =>
      have hc : c ≠ '\x60' := by
        intro he
        exact h (he ▸ List.mem_cons_self c t)
      have hpre : fenceTicks.isPrefixOf (c :: t) = false := by
        unfold fenceTicks
        rw [List.isPrefixOf]
        simp [Bool.and_eq_true, beq_iff_eq]
        intro he
        exact absurd he.symm hc
      unfold fencedSearch
      rw [hpre]
      show fencedSearch t = none
      exact ih (fun hm => h (List.mem_cons_of_mem c hm))

end StripAndSearchLemmas

section FencedPathLemmas

/-- `\s*`+fence does not match while material from the capture body (no
backticks) is followed by a closing brace: the first non-whitespace
character reached is not a backtick. -/
theorem fenceTailOk_mid (zs : List Char) :
    ∀ w, '\x60' ∉ zs → fenceTailOk (zs ++ '\x7d' :: w) = false := by
  induction zs with
  | nil =>
      intro w _
      rfl
  | cons z zs' ih =>
      intro w hz
      have hz' : '\x60' ∉ zs' := fun hm => hz (List.mem_cons_of_mem z hm)
      have hzne : z ≠ '\x60' := fun he => hz (he ▸ List.mem_cons_self z zs')
      unfold fenceTailOk skipWs
      rw [List.cons_append, List.dropWhile_cons]
      by_cases hw : isPyWs z = true
      · rw [if_pos (by rw [hw])]
        exact ih w hz'
      · rw [if_neg (by rw [Bool.not_eq_true] at hw; rw [hw]; simp)]
        unfold fenceTicks
        rw [List.isPrefixOf]
        simp [Bool.and_eq_true, beq_iff_eq]
        intro he
        exact absurd he.symm hzne

/-- The non-greedy capture runs to the closing brace just before the
closing fence, when the body contains no backtick. -/
theorem fenceClose_of_no_tick : ∀ q' : List Char, '\x60' ∉ q' →
    fenceClose (q' ++ '\x7d' :: '\n' :: fenceTicks) = some (q' ++ ['\x7d']) := by
  intro q'
  induction q' with
  | nil => intro _; rfl
  | cons c q'' ih =>
      intro hq
      have hq' : '\x60' ∉ q'' := fun hm => hq (List.mem_cons_of_mem c hm)
      have ht : fenceTailOk (q'' ++ '\x7d' :: '\n' :: fenceTicks) = false :=
        fenceTailOk_mid q'' ('\n' :: fenceTicks) hq'
      rw [List.cons_append]
      unfold fenceClose
      rw [ht, Bool.and_false]
      show (fenceClose (q'' ++ '\x7d' :: '\n' :: fenceTicks)).map
        (fun r => c :: r) = some (c :: q'' ++ ['\x7d'])
      rw [ih hq']
      rfl

/-- `\s*\{` matching right after the optional `json` tag: skip the
newline, hit the opening brace of the body. -/
theorem fencedTryOpen_calc (body tl : List Char) :
    fencedTryOpen ('\n' :: (('\x7b' :: body) ++ tl)) =
      (fenceClose (body ++ tl)).map (fun r => '\x7b' :: r) := rfl

/-- A successful fenced match at an opening fence is returned by the
left-to-right search. -/
theorem fencedSearch_of_afterTicks (rest r : List Char)
    (h : fencedAfterTicks rest = some r) :
    fencedSearch ('\x60' :: '\x60' :: '\x60' :: rest) = some r := by
  unfold fencedSearch
  have hc : fenceTicks.isPrefixOf ('\x60' :: '\x60' :: '\x60' :: rest) = true := by
    simp [fenceTicks, List.isPrefixOf]
  rw [hc, if_pos rfl]
  show (match fencedAfterTicks rest with
    | some r2 => some r2
    | none => fencedSearch ('\x60' :: '\x60' :: rest)) = some r
  rw [h]

/-- The `json`-tagged alternative succeeding. -/
theorem fencedAfterTicks_json (cs t r : List Char)
    (hj : matchCIjson cs = some t) (hr : fencedTryOpen t = some r) :
    fencedAfterTicks cs = some r := by
  unfold fencedAfterTicks
  rw [hj]
  show (match fencedTryOpen t with
    | some r2 => some r2
    | none => fencedTryOpen cs) = some r
  rw [hr]

/-- `handleCandidate` on a candidate whose parse and normalization
succeed. -/
theorem handleCandidate_ok (cap : List Char) (kvs p : List (String × Json))
    (hl : jsonLoads cap = some (Json.obj kvs))
    (hn : normalizeParsed kvs = some p) :
    handleCandidate cap = Except.ok p := by
  unfold handleCandidate
  rw [hl]
  show (match normalizeParsed kvs with
    | some q => Except.ok q
    | none => (Except.error GenError.attributeError :
        Except GenError (List (String × Json)))) = Except.ok p
  rw [hn]

end FencedPathLemmas

/-- C5 (amended): fenced and unfenced parsing of the same serialized
object agree, provided the serialization contains no backtick, is
captured whole by the balanced-brace scan (no close brace inside a
string literal cuts it short), parses, and normalizes without error;
then both succeed with the identical normalized record. -/
theorem C5_fenced_unfenced_agree (s : String) (kvs p : List (String × Json))
    (hbt : '\x60' ∉ s.data)
    (hscan : brace_scan s.data = some s.data)
    (hload : jsonLoads s.data = some (Json.obj kvs))
    (hnorm : normalizeParsed kvs = some p) :
    parse_response ("```json\n" ++ s ++ "\n```") = Except.ok p ∧
    parse_response s = Except.ok p := by
  obtain ⟨⟨t0, hhead⟩, ⟨q, hlast⟩⟩ := brace_scan_full s.data hscan
  have hq : ∃ q', s.data = '\x7b' :: (q' ++ ['\x7d']) := by
    cases q with
    | nil =>
        rw [hhead] at hlast
        rw [List.nil_append] at hlast
        injection hlast with h1 h2
        exact absurd h1 (by decide)
    | cons c q' =>
        have hceq : '\x7b' :: t0 = c :: (q' ++ ['\x7d']) := by
          rw [← hhead, hlast, List.cons_append]
        injection hceq with h1 h2
        exact ⟨q', by rw [hlast, List.cons_append, ← h1]⟩
  obtain ⟨q', hsd⟩ := hq
  have hbq : '\x60' ∉ q' := by
    intro hm
    apply hbt
    rw [hsd]
    exact List.mem_cons_of_mem _ (List.mem_append_left _ hm)
  have hh : s.data.head? = some '\x7b' := by rw [hsd]; rfl
  have hl : s.data.getLast? = some '\x7d' := by
    rw [hlast]
    exact List.getLast?_concat q
  have hstrip : py_strip s.data = s.data :=
    py_strip_eq_self s.data '\x7b' '\x7d' hh rfl hl rfl
  have hsEmpty : s.data.isEmpty = false := by rw [hsd]; rfl
  have hcand : handleCandidate s.data = Except.ok p :=
    handleCandidate_ok s.data kvs p hload hnorm
  constructor
  · have hdata : ("```json\n" ++ s ++ "\n```").data =
        '\x60' :: '\x60' :: '\x60' :: 'j' :: 's' :: 'o' :: 'n' :: '\n' ::
          (s.data ++ ('\n' :: fenceTicks)) := by
      rw [String.data_append, String.data_append]
      rfl
    have hclose : fenceClose ((q' ++ ['\x7d']) ++ ('\n' :: fenceTicks)) =
        some (q' ++ ['\x7d']) := by
      rw [List.append_assoc]
      exact fenceClose_of_no_tick q' hbq
    have htry : fencedTryOpen ('\n' :: (s.data ++ ('\n' :: fenceTicks))) =
        some s.data := by
      have hcalc := fencedTryOpen_calc (q' ++ ['\x7d']) ('\n' :: fenceTicks)
      rw [hclose] at hcalc
      rw [hsd]
      exact hcalc
    have hjson : matchCIjson ('j' :: 's' :: 'o' :: 'n' :: '\n' ::
        (s.data ++ ('\n' :: fenceTicks))) =
        some ('\n' :: (s.data ++ ('\n' :: fenceTicks))) := rfl
    have hsearch : fencedSearch (("```json\n" ++ s ++ "\n```").data) =
        some s.data := by
      rw [hdata]
      exact fencedSearch_of_afterTicks _ _
        (fencedAfterTicks_json _ _ _ hjson htry)
    have hFlast : (("```json\n" ++ s ++ "\n```").data).getLast? =
        some '\x60' := by
      rw [hdata]
      rw [show '\x60' :: '\x60' :: '\x60' :: 'j' :: 's' :: 'o' :: 'n' :: '\n' ::
          (s.data ++ ('\n' :: fenceTicks)) =
          ('\x60' :: '\x60' :: '\x60' :: 'j' :: 's' :: 'o' :: 'n' :: '\n' ::
            (s.data ++ ['\n', '\x60', '\x60'])) ++ ['\x60'] from by
        simp [fenceTicks]]
      exact List.getLast?_concat _
    have hFhead : (("```json\n" ++ s ++ "\n```").data).head? = some '\x60' := by
      rw [hdata]; rfl
    have hFstrip : py_strip (("```json\n" ++ s ++ "\n```").data) =
        ("```json\n" ++ s ++ "\n```").data :=
      py_strip_eq_self _ '\x60' '\x60' hFhead rfl hFlast rfl
    have hFempty : (("```json\n" ++ s ++ "\n```").data).isEmpty = false := by
      rw [hdata]; rfl
    unfold parse_response parse_stripped
    rw [hFstrip, hFempty, if_neg (by decide), hsearch]
    exact hcand
  · unfold parse_response parse_stripped
    rw [hstrip, hsEmpty, if_neg (by decide),
      fencedSearch_eq_none s.data hbt, hscan]
    exact hcand

/-- C5 counterexample: for the object `{"a": "}"}` (a close brace inside
a string value), the fenced response parses successfully while the
unfenced response fails — the oblivious depth count of lines 216-224
stops at the brace inside the string, extracting the unparseable
candidate `{"a": "}`.  So fenced and unfenced parsing of the same
serialized object do not always both succeed. -/
theorem C5_counterexample :
    parse_response "```json\n\x7b\"a\": \"\x7d\"\x7d\n```" =
      Except.ok [("a", Json.str "\x7d"),
        ("color_theme", Json.str "blue_orange"),
        ("bullet_points_ta", Json.arr []),
        ("text_colors", Json.obj [("headline", Json.str "dark_blue"),
          ("body", Json.str "black"), ("cta", Json.str "red")])] ∧
    parse_response "\x7b\"a\": \"\x7d\"\x7d" =
      Except.error (GenError.invalidJson "\x7b\"a\": \"\x7d") :=
  ⟨rfl, rfl⟩

/-- Witness for C5 at the serialization `{"a": 1}`. -/
theorem C5_fenced_unfenced_agree_witness :
    parse_response "```json\n\x7b\"a\": 1\x7d\n```" =
      Except.ok [("a", Json.num 1),
        ("color_theme", Json.str "blue_orange"),
        ("bullet_points_ta", Json.arr []),
        ("text_colors", Json.obj [("headline", Json.str "dark_blue"),
          ("body", Json.str "black"), ("cta", Json.str "red")])] ∧
    parse_response "\x7b\"a\": 1\x7d" =
      Except.ok [("a", Json.num 1),
        ("color_theme", Json.str "blue_orange"),
        ("bullet_points_ta", Json.arr []),
        ("text_colors", Json.obj [("headline", Json.str "dark_blue"),
          ("body", Json.str "black"), ("cta", Json.str "red")])] :=
  C5_fenced_unfenced_agree "\x7b\"a\": 1\x7d" [("a", Json.num 1)]
    [("a", Json.num 1),
     ("color_theme", Json.str "blue_orange"),
     ("bullet_points_ta", Json.arr []),
     ("text_colors", Json.obj [("headline", Json.str "dark_blue"),
       ("body", Json.str "black"), ("cta", Json.str "red")])]
    (by decide) rfl rfl rfl

end PosterGen
